import Mathlib

/-!
Verification of the IP address management core of the python-ipam
repository: CIDR arithmetic, the address-pool evaluator, the DHCP range
validator, the allocation orchestrator and the import validation
pipeline, shallowly embedded from the Python source
(`ipam/models.py`, `ipam/api/ip_management.py`, `ipam/api/dhcp_ranges.py`,
`ipam/api/hosts.py`, `ipam/api/networks.py`, `importers/csv_importer.py`,
`importers/json_importer.py`).

IPv4 addresses are modelled by their numeric value (a `Nat` below `2^32`);
dotted-quad texts are parsed by `parseIPv4`, which follows the stdlib
`ipaddress.IPv4Address` grammar (four octets, decimal, no leading zeros,
each at most 255).  Database rows are records in ordinary lists; columns
that no verified operation reads (name, domain, vlan, descriptions,
MAC addresses, CNAME) are omitted from the records.
-/

namespace Ipam

/-! ### IPv4 address arithmetic (stdlib `ipaddress` semantics) -/

/-- Split a character list at every occurrence of a one-character
separator (Python `text.split(sep)`). -/
def splitChar (sep : Char) : List Char → List (List Char)
  | [] => [[]]
  | c :: cs =>
    let r := splitChar sep cs
    if c == sep then [] :: r
    else
      match r with
      | [] => [[c]]
      | piece :: rest => (c :: piece) :: rest

/-- Value of one decimal digit character. -/
def digitVal (c : Char) : Option Nat :=
  if 48 ≤ c.toNat ∧ c.toNat ≤ 57 then some (c.toNat - 48) else none

/-- Value of a decimal digit string, given an accumulator. -/
def digitsToNat : List Char → Nat → Option Nat
  | [], acc => some acc
  | c :: cs, acc =>
    match digitVal c with
    | some d => digitsToNat cs (acc * 10 + d)
    | none => none

/-- Parse one dotted-quad octet: non-empty, at most three decimal digits,
no leading zero, value at most 255 (stdlib `_parse_octet`). -/
def parseOctet (cs : List Char) : Option Nat :=
  if cs.length = 0 || 3 < cs.length then none
  else if 1 < cs.length && cs.head? == some '0' then none
  else
    match digitsToNat cs 0 with
    | none => none
    | some v => if v ≤ 255 then some v else none

/-- Parse a dotted-quad IPv4 address text to its 32-bit numeric value
(stdlib `IPv4Address`). -/
def parseIPv4 (s : String) : Option Nat :=
  match (splitChar '.' s.data).mapM parseOctet with
  | some [a, b, c, d] => some (((a * 256 + b) * 256 + c) * 256 + d)
  | _ => none

/-- Python whitespace characters stripped by `str.strip()` (the ASCII
ones; the texts handled here are ASCII). -/
def isPySpace (c : Char) : Bool :=
  c == ' ' || c == '\t' || c == '\n' || c == '\r' || c.toNat == 11 || c.toNat == 12

/-- Characters of `text.strip()`. -/
def stripChars (cs : List Char) : List Char :=
  ((cs.dropWhile isPySpace).reverse.dropWhile isPySpace).reverse

/-- Python `text.strip()`. -/
def pyStrip (s : String) : String := ⟨stripChars s.data⟩

/-- ASCII lower-casing of one character (`str.lower()` on the ASCII
texts handled here). -/
def asciiLower (c : Char) : Char :=
  if 65 ≤ c.toNat ∧ c.toNat ≤ 90 then Char.ofNat (c.toNat + 32) else c

/-- Python `text.lower()`. -/
def pyLower (s : String) : String := ⟨s.data.map asciiLower⟩

/-- Number of addresses in a block of prefix length `p`. -/
def blockSize (p : Nat) : Nat := 2 ^ (32 - p)

/-- Network address: host bits of `base` masked off
(`IPv4Network(..., strict=False)`). -/
def networkAddress (base p : Nat) : Nat := base / blockSize p * blockSize p

/-- Broadcast address: network address with all host bits set. -/
def broadcastAddress (base p : Nat) : Nat := networkAddress base p + blockSize p - 1

/-- Membership of an address in a network (Python `ip in net`):
between network address and broadcast address inclusively. -/
def ipInNetwork (base p ip : Nat) : Bool :=
  networkAddress base p ≤ ip && ip ≤ broadcastAddress base p

/-- The list produced by `IPv4Network.hosts()` (CPython 3.8+): for /31 the
two addresses of the block, for /32 the single address, otherwise all
addresses strictly between network and broadcast address, ascending. -/
def pyHosts (base p : Nat) : List Nat :=
  let network := networkAddress base p
  let broadcast := broadcastAddress base p
  if p == 31 then [network, broadcast]
  else if p == 32 then [network]
  else List.range' (network + 1) (broadcast - network - 1)

/-- Parse the stored `(network, cidr)` pair the way
`IPv4Network(f"{network}/{cidr}", strict=False)` does: the address text
must be a valid dotted quad and the prefix at most 32. -/
def parseNetworkText (network : String) (cidr : Nat) : Option (Nat × Nat) :=
  match parseIPv4 network with
  | none => none
  | some base => if cidr ≤ 32 then some (base, cidr) else none

/-- Dotted-quad text of a numeric address (`str(IPv4Address(v))`). -/
def ipToString (v : Nat) : String :=
  toString (v / 16777216 % 256) ++ "." ++ toString (v / 65536 % 256) ++ "."
    ++ toString (v / 256 % 256) ++ "." ++ toString (v % 256)

/-! ### Data model (`ipam/models.py`, `migrations/versions/...`) -/

/-- Row of the `networks` table.  The stored `network` column is the
verbatim dotted-quad text, `cidr` the prefix length; `broadcast_address`
is the stored derived column (numeric value of its dotted text).
Metadata columns (name, domain, vlan_id, description, location) are
omitted. -/
structure NetworkRec where
  id : Nat
  network : String
  cidr : Nat
  broadcast_address : Option Nat
deriving Repr, DecidableEq

/-- Row of the `hosts` table; `ip_address` is the verbatim stored text.
Columns not read by the verified operations (hostname, cname,
mac_address, description, last_seen, discovery_source) are omitted. -/
structure HostRec where
  id : Nat
  ip_address : String
  network_id : Option Nat
  status : String
  is_assigned : Option Bool
deriving Repr, DecidableEq

/-- Row of the `dhcp_ranges` table (columns from the
`add_dhcp_ranges_table` migration).  `start_ip` and `end_ip` are stored
as canonical dotted-quad texts; they are modelled by their numeric
values, which the code always compares after `IPv4Address` conversion. -/
structure DhcpRangeRec where
  id : Nat
  network_id : Nat
  start_ip : Nat
  end_ip : Nat
  is_active : Bool
deriving Repr, DecidableEq

/-- The relational store the API operates on. -/
structure Store where
  networks : List NetworkRec
  hosts : List HostRec
  dhcpRanges : List DhcpRangeRec
deriving Repr, DecidableEq

/-- Property `Network.total_hosts`:
`len(list(IPv4Network(f"{self.network}/{self.cidr}", strict=False).hosts()))`.
`none` models the `ValueError` raised on an unparsable stored pair. -/
def total_hosts (n : NetworkRec) : Option Nat :=
  (parseNetworkText n.network n.cidr).map (fun bp => (pyHosts bp.1 bp.2).length)

/-! ### Address pool evaluator (`ipam/api/ip_management.py`) -/

/-- Helper `_in_active_dhcp_range`: true when the address lies inside some
range of the list whose `is_active` flag is set (inactive entries are
skipped by the loop's `continue`). -/
def in_active_dhcp_range (ip : Nat) (ranges : List DhcpRangeRec) : Bool :=
  ranges.any (fun r => r.is_active && (r.start_ip ≤ ip && ip ≤ r.end_ip))

/-- `Host.query.filter_by(network_id=network_id).all()`. -/
def hostsOfNetwork (st : Store) (nid : Nat) : List HostRec :=
  st.hosts.filter (fun h => h.network_id == some nid)

/-- `DhcpRange.query.filter_by(network_id=network_id, is_active=True).all()`. -/
def activeRangesOf (st : Store) (nid : Nat) : List DhcpRangeRec :=
  st.dhcpRanges.filter (fun r => r.network_id == nid && r.is_active)

/-- The `used_ips` set comprehension: converts each stored host address
text with `IPv4Address`; `none` models the exception raised if a stored
text does not parse. -/
def usedIPs : List HostRec → Option (List Nat)
  | [] => some []
  | h :: t =>
    match parseIPv4 h.ip_address, usedIPs t with
    | some v, some vs => some (v :: vs)
    | _, _ => none

/-- `NextAvailableIP.get` on a fetched network row: scan `net.hosts()`
ascending, skipping addresses in `used_ips` or in an active DHCP range.
Outer `none` models an exception from unparsable stored data; inner
`none` is the 400 "No available IP addresses in this network" abort. -/
def nextAvailableIP (st : Store) (n : NetworkRec) : Option (Option Nat) :=
  match parseNetworkText n.network n.cidr with
  | none => none
  | some (b, p) =>
    match usedIPs (hostsOfNetwork st n.id) with
    | none => none
    | some used =>
      let ranges := activeRangesOf st n.id
      some ((pyHosts b p).find?
        (fun ip => !(used.contains ip) && !(in_active_dhcp_range ip ranges)))

/-- An address of a network is occupied when some host row of that
network stores it or it falls inside an active DHCP range of the
network. -/
def ipOccupied (st : Store) (nid : Nat) (a : Nat) : Prop :=
  (∃ h ∈ st.hosts, h.network_id = some nid ∧ parseIPv4 h.ip_address = some a) ∨
    in_active_dhcp_range a (activeRangesOf st nid) = true

/-! ### DHCP range validator (`ipam/api/dhcp_ranges.py`) -/

/-- The candidate's sibling query:
`DhcpRange.query.filter_by(network_id=network.id)`, further filtered by
`DhcpRange.id != exclude_range_id` only when `exclude_range_id` is
truthy (present and nonzero). -/
def siblingRanges (st : Store) (nid : Nat) (excl : Option Nat) : List DhcpRangeRec :=
  let q := st.dhcpRanges.filter (fun r => r.network_id == nid)
  match excl with
  | some x => if x ≠ 0 then q.filter (fun r => !(r.id == x)) else q
  | none => q

/-- The overlap test of `_validate_range`:
`not (end_ip < existing_start or start_ip > existing_end)`. -/
def overlapsTest (s e rs re : Nat) : Bool := !(decide (e < rs) || decide (s > re))

/-- `_validate_range(network, start_ip, end_ip, exclude_range_id)`.
Outer `none` models the exception raised when the stored network text
does not parse; the inner value is the returned error message
(`none` = range accepted). -/
def validate_range (st : Store) (n : NetworkRec) (start_ip end_ip : Nat)
    (excl : Option Nat) : Option (Option String) :=
  match parseNetworkText n.network n.cidr with
  | none => none
  | some (b, p) =>
    some (
      if !(ipInNetwork b p start_ip) || !(ipInNetwork b p end_ip) then
        some "DHCP range must be within the selected network"
      else if start_ip > end_ip then
        some "Start IP must be less than or equal to End IP"
      else
        match (siblingRanges st n.id excl).find?
            (fun r => overlapsTest start_ip end_ip r.start_ip r.end_ip) with
        | some r =>
          some ("DHCP range overlaps an existing range: "
            ++ ipToString r.start_ip ++ "-" ++ ipToString r.end_ip)
        | none => none)

/-! ### Allocation orchestrator: hosts (`ipam/api/hosts.py`) -/

/-- Outcome of a host write. -/
inductive HostWriteResult where
  | error (msg : String)
  | notFound
  | ok (h : HostRec)
deriving Repr, DecidableEq

/-- The auto-detection loop of `HostList.post` / `HostResource.put`:
scan `Network.query.all()` in order and return the id of the first
network containing the address.  Outer `none` models the exception
raised when a stored network text does not parse before a match is
found. -/
def detectNetwork (nets : List NetworkRec) (ip : Nat) : Option (Option Nat) :=
  match nets with
  | [] => some none
  | n :: rest =>
    match parseNetworkText n.network n.cidr with
    | none => none
    | some bp =>
      if ipInNetwork bp.1 bp.2 ip then some (some n.id) else detectNetwork rest ip

/-- Input payload of `HostList.post`.  Fields the verified claims never
read (hostname, cname, mac_address, description) are omitted;
`is_assigned` carries an already-boolean JSON value (for which
`_parse_bool` is the identity) and the payload carries no `last_seen`
key, so the timestamp branch is skipped. -/
structure HostInput where
  ip_address : String
  network_id : Option Nat
  status : Option String
  is_assigned : Option Bool
deriving Repr, DecidableEq

/-- `HostList.post`: validate the address text, reject duplicates by
stored text, auto-detect the network when `network_id` is falsy
(absent or 0), then insert.  `cfgAssign` is the
`HOST_ASSIGN_ON_CREATE` configuration value and `freshId` the id the
database assigns.  Outer `none` models an exception from unparsable
stored network texts during auto-detection. -/
def createHost (st : Store) (inp : HostInput) (cfgAssign : Bool)
    (freshId : Nat) : Option (HostWriteResult × Store) :=
  match parseIPv4 inp.ip_address with
  | none => some (.error "Invalid IP address", st)
  | some ipVal =>
    if st.hosts.any (fun h => h.ip_address == inp.ip_address) then
      some (.error "IP address already exists", st)
    else
      let detected : Option (Option Nat) :=
        match inp.network_id with
        | some x => if x ≠ 0 then some (some x) else detectNetwork st.networks ipVal
        | none => detectNetwork st.networks ipVal
      match detected with
      | none => none
      | some nid =>
        let assigned := match inp.is_assigned with
          | some b => b
          | none => cfgAssign
        let h : HostRec :=
          { id := freshId
            ip_address := inp.ip_address
            network_id := nid
            status := inp.status.getD "active"
            is_assigned := some assigned }
        some (.ok h, { st with hosts := st.hosts ++ [h] })

/-- Input payload of `HostResource.put`.  `network_id` distinguishes an
absent key (`none`) from a present key with value null or an id
(`some v`), matching `data.get("network_id", host_obj.network_id)`. -/
structure HostUpdateInput where
  ip_address : String
  network_id : Option (Option Nat)
  status : Option String
  is_assigned : Option Bool
deriving Repr, DecidableEq

/-- Truthiness of `data.get("network_id")`: false for an absent key,
a null value, or 0. -/
def networkIdTruthy (f : Option (Option Nat)) : Bool :=
  match f with
  | some (some x) => x ≠ 0
  | _ => false

/-- `HostResource.put`: when the address text changes, re-validate it and
re-check uniqueness (excluding self); re-run auto-detection only when
the address changed and no truthy `network_id` was supplied; then
overwrite the row's fields. -/
def updateHost (st : Store) (hid : Nat) (inp : HostUpdateInput) :
    Option (HostWriteResult × Store) :=
  match st.hosts.find? (fun h => h.id == hid) with
  | none => some (.notFound, st)
  | some old =>
    let ipChanged := inp.ip_address ≠ old.ip_address
    if ipChanged ∧ parseIPv4 inp.ip_address = none then
      some (.error "Invalid IP address", st)
    else if ipChanged ∧ st.hosts.any
        (fun h => h.ip_address == inp.ip_address && !(h.id == hid)) then
      some (.error "IP address already exists", st)
    else
      let kept : Option Nat :=
        match inp.network_id with
        | some v => v
        | none => old.network_id
      let detected : Option (Option Nat) :=
        if ipChanged ∧ networkIdTruthy inp.network_id = false then
          match parseIPv4 inp.ip_address with
          | some ipVal => detectNetwork st.networks ipVal
          | none => some none
        else
          some kept
      match detected with
      | none => none
      | some nid =>
        let updated : HostRec :=
          { id := old.id
            ip_address := inp.ip_address
            network_id := nid
            status := inp.status.getD "active"
            is_assigned := match inp.is_assigned with
              | some b => some b
              | none => old.is_assigned }
        some (.ok updated,
          { st with hosts := st.hosts.map (fun h => if h.id == hid then updated else h) })

/-- Names bound in the module scope of `ipam/api/hosts.py`: its imports
and its module-level definitions. -/
def hostsModuleScopeNames : List String :=
  ["ipaddress", "datetime", "current_app", "request", "Namespace",
   "Resource", "fields", "db", "Host", "Network", "host_model",
   "host_input_model", "pagination_model", "error_model", "api", "host",
   "host_input", "pagination", "error", "host_list", "HostList",
   "HostResource"]

/-- Python built-in names that could resolve a bare name after the
module scope. -/
def pyPredefinedNames : List String :=
  ["abs", "all", "any", "ascii", "bin", "bool", "bytearray", "bytes",
   "callable", "chr", "classmethod", "compile", "complex", "delattr",
   "dict", "dir", "divmod", "enumerate", "eval", "exec", "filter",
   "float", "format", "frozenset", "getattr", "globals", "hasattr",
   "hash", "help", "hex", "id", "input", "int", "isinstance",
   "issubclass", "iter", "len", "list", "locals", "map", "max",
   "memoryview", "min", "next", "object", "oct", "open", "ord", "pow",
   "print", "property", "range", "repr", "reversed", "round", "set",
   "setattr", "slice", "sorted", "staticmethod", "str", "sum", "super",
   "tuple", "type", "vars", "zip"]

/-- Name resolution for a bare name used inside a method of
`ipam/api/hosts.py` (no local or enclosing binding): module scope, then
built-ins. -/
def hostsNameDefined (name : String) : Bool :=
  hostsModuleScopeNames.contains name || pyPredefinedNames.contains name

/-- Outcome of `HostResource.delete`. -/
inductive DeleteHostResult where
  | nameError
  | notFound
  | deleted
deriving Repr, DecidableEq

/-- `HostResource.delete`: its first statement evaluates the bare name
`get_models`; only if that name resolved would the row be fetched and
deleted. -/
def hostResourceDelete (st : Store) (hid : Nat) : DeleteHostResult × Store :=
  if hostsNameDefined "get_models" then
    match st.hosts.find? (fun h => h.id == hid) with
    | none => (.notFound, st)
    | some h =>
      (.deleted, { st with hosts := st.hosts.filter (fun x => !(x.id == h.id)) })
  else
    (.nameError, st)

/-! ### Allocation orchestrator: networks (`ipam/api/networks.py`) -/

/-- Outcome of a network write. -/
inductive NetWriteResult where
  | error (msg : String)
  | notFound
  | ok (n : NetworkRec)
deriving Repr, DecidableEq

/-- `NetworkList.post`: parse the submitted pair (computing the
broadcast address), reject when some existing row has the same
`network` text (`filter_by(network=data["network"])` — the `cidr`
column takes no part in the duplicate check), then insert. -/
def createNetwork (st : Store) (networkText : String) (cidr : Nat)
    (freshId : Nat) : NetWriteResult × Store :=
  match parseNetworkText networkText cidr with
  | none => (.error "Invalid network address", st)
  | some (b, p) =>
    if st.networks.any (fun m => m.network == networkText) then
      (.error "Network already exists", st)
    else
      let n : NetworkRec :=
        { id := freshId
          network := networkText
          cidr := cidr
          broadcast_address := some (broadcastAddress b p) }
      (.ok n, { st with networks := st.networks ++ [n] })

/-- `NetworkResource.put`: only when the submitted `network` text or
`cidr` differs from the stored row does it re-parse (recomputing the
broadcast) and re-check duplicates — again by `network` text alone,
excluding the row itself; the fields are then overwritten. -/
def updateNetwork (st : Store) (nid : Nat) (networkText : String)
    (cidr : Nat) : NetWriteResult × Store :=
  match st.networks.find? (fun m => m.id == nid) with
  | none => (.notFound, st)
  | some old =>
    let commit := fun (bc : Option Nat) =>
      let updated : NetworkRec :=
        { id := old.id, network := networkText, cidr := cidr, broadcast_address := bc }
      (NetWriteResult.ok updated,
        { st with networks := st.networks.map (fun m => if m.id == nid then updated else m) })
    if networkText ≠ old.network ∨ cidr ≠ old.cidr then
      match parseNetworkText networkText cidr with
      | none => (.error "Invalid network address", st)
      | some (b, p) =>
        if st.networks.any (fun m => m.network == networkText && !(m.id == nid)) then
          (.error "Network already exists", st)
        else
          commit (some (broadcastAddress b p))
    else
      commit old.broadcast_address

/-- Outcome of `NetworkResource.delete`. -/
inductive DeleteNetworkResult where
  | notFound
  | hasAssignedHosts (count : Nat)
  | deleted
deriving Repr, DecidableEq

/-- `NetworkResource.delete`: abort with 400 when `network_obj.hosts`
(the host rows whose `network_id` references the row) is non-empty,
otherwise delete the row.  The ORM cascade on the relationship is
vacuous here since deletion only proceeds with zero referencing
hosts. -/
def deleteNetwork (st : Store) (nid : Nat) : DeleteNetworkResult × Store :=
  match st.networks.find? (fun m => m.id == nid) with
  | none => (.notFound, st)
  | some n =>
    let assigned := st.hosts.filter (fun h => h.network_id == some n.id)
    if assigned.isEmpty then
      (.deleted, { st with networks := st.networks.filter (fun m => !(m.id == n.id)) })
    else
      (.hasAssignedHosts assigned.length, st)

/-! ### Import validation pipeline
(`importers/csv_importer.py`, `importers/json_importer.py`) -/

/-- A raw host record as produced by `CSVImporter.import_hosts`: every
field is the stripped cell text (absent columns become `""`). -/
structure RawHostCSV where
  ip_address : String
  hostname : String
  mac_address : String
  status : String
  is_assigned : String
  last_seen : String
  discovery_source : String
  description : String
deriving Repr, DecidableEq

/-- A validated host record ready for persistence.  The `last_seen`
value produced by the external `datetime.fromisoformat` is opaque and
modelled as a number. -/
structure ValidHostRow where
  ip_address : String
  hostname : String
  mac_address : String
  status : String
  is_assigned : Option Bool
  last_seen : Option Nat
  discovery_source : Option String
  description : String
deriving Repr, DecidableEq

/-- The recognized truthy boolean texts. -/
def trueWords : List String := ["1", "true", "yes", "on"]

/-- The recognized falsy boolean texts. -/
def falseWords : List String := ["0", "false", "no", "off"]

/-- The status whitelist. -/
def validStatuses : List String := ["active", "inactive", "reserved"]

/-- Timestamp preprocessing before `fromisoformat`: strip, then rewrite
a trailing `Z` to `+00:00`. -/
def normalizeTimestampText (s : String) : String :=
  let t := stripChars s.data
  if t.getLast? == some 'Z' then ⟨t.dropLast ++ "+00:00".data⟩ else ⟨t⟩

/-- Validation of one CSV host record (`CSVImporter.validate_hosts_data`
loop body).  `fromiso` is the external ISO-8601 parser
(`datetime.fromisoformat`), `none` meaning it raises `ValueError`.
Error messages omit the appended stdlib exception text. -/
def validateHostRowCSV (fromiso : String → Option Nat) (rowNum : Nat)
    (r : RawHostCSV) : Except String ValidHostRow :=
  if r.ip_address == "" then
    .error ("Row " ++ toString rowNum ++ ": Missing required field (IP Address)")
  else match parseIPv4 r.ip_address with
  | none => .error ("Row " ++ toString rowNum ++ ": Invalid IP address")
  | some _ =>
    let status := if validStatuses.contains r.status then r.status else "active"
    let assignedStep : Except String (Option Bool) :=
      if r.is_assigned == "" then .ok none
      else
        let v := pyLower (pyStrip r.is_assigned)
        if trueWords.contains v then .ok (some true)
        else if falseWords.contains v then .ok (some false)
        else .error ("Row " ++ toString rowNum ++ ": Invalid Is Assigned value")
    match assignedStep with
    | .error e => .error e
    | .ok assigned =>
      let seenStep : Except String (Option Nat) :=
        if r.last_seen == "" then .ok none
        else
          match fromiso (normalizeTimestampText r.last_seen) with
          | some t => .ok (some t)
          | none => .error ("Row " ++ toString rowNum ++ ": Invalid Last Seen timestamp")
      match seenStep with
      | .error e => .error e
      | .ok seen =>
        .ok
          { ip_address := r.ip_address
            hostname := r.hostname
            mac_address := r.mac_address
            status := status
            is_assigned := assigned
            last_seen := seen
            discovery_source :=
              if r.discovery_source == "" then none else some r.discovery_source
            description := r.description }

/-- The accumulating loop of `CSVImporter.validate_hosts_data`,
carrying the current zero-based index. -/
def csvHostsLoop (fromiso : String → Option Nat) :
    Nat → List RawHostCSV → List ValidHostRow × List String
  | _, [] => ([], [])
  | i, r :: rest =>
    let tail := csvHostsLoop fromiso (i + 1) rest
    match validateHostRowCSV fromiso (i + 2) r with
    | .ok v => (v :: tail.1, tail.2)
    | .error e => (tail.1, e :: tail.2)

/-- `CSVImporter.validate_hosts_data`: returns the validated records and
the accumulated error strings; row numbers are offset by the header
row (`i + 2`). -/
def validate_hosts_data_csv (fromiso : String → Option Nat)
    (data : List RawHostCSV) : List ValidHostRow × List String :=
  csvHostsLoop fromiso 0 data

/-- A JSON value in the `is_assigned` field of a raw JSON host record:
null, a boolean, a string, or any other JSON value. -/
inductive JAVal where
  | null
  | bool (b : Bool)
  | str (s : String)
  | other
deriving Repr, DecidableEq

/-- A raw host record as handed to `JSONImporter.validate_hosts_data`:
textual fields are stripped strings, `is_assigned` is the raw JSON
value, `last_seen` the raw textual timestamp (absent = `""`). -/
structure RawHostJSON where
  ip_address : String
  hostname : String
  mac_address : String
  status : String
  is_assigned : JAVal
  last_seen : String
  discovery_source : String
  description : String
deriving Repr, DecidableEq

/-- Validation of one JSON host record
(`JSONImporter.validate_hosts_data` loop body): booleans pass through,
strings are normalized against the recognized words, any other
non-null value is rejected. -/
def validateHostRowJSON (fromiso : String → Option Nat) (entryNum : Nat)
    (r : RawHostJSON) : Except String ValidHostRow :=
  if r.ip_address == "" then
    .error ("Entry " ++ toString entryNum ++ ": Missing required field (ip_address)")
  else match parseIPv4 r.ip_address with
  | none => .error ("Entry " ++ toString entryNum ++ ": Invalid IP address")
  | some _ =>
    let status := if validStatuses.contains r.status then r.status else "active"
    let assignedStep : Except String (Option Bool) :=
      match r.is_assigned with
      | .null => .ok none
      | .bool b => .ok (some b)
      | .str s =>
        let v := pyLower (pyStrip s)
        if trueWords.contains v then .ok (some true)
        else if falseWords.contains v then .ok (some false)
        else .error ("Entry " ++ toString entryNum ++ ": Invalid is_assigned value")
      | .other => .error ("Entry " ++ toString entryNum ++ ": Invalid is_assigned value")
    match assignedStep with
    | .error e => .error e
    | .ok assigned =>
      let seenStep : Except String (Option Nat) :=
        if r.last_seen == "" then .ok none
        else
          match fromiso (normalizeTimestampText r.last_seen) with
          | some t => .ok (some t)
          | none => .error ("Entry " ++ toString entryNum ++ ": Invalid last_seen timestamp")
      match seenStep with
      | .error e => .error e
      | .ok seen =>
        .ok
          { ip_address := r.ip_address
            hostname := r.hostname
            mac_address := r.mac_address
            status := status
            is_assigned := assigned
            last_seen := seen
            discovery_source :=
              if r.discovery_source == "" then none else some r.discovery_source
            description := r.description }

/-- The accumulating loop of `JSONImporter.validate_hosts_data`. -/
def jsonHostsLoop (fromiso : String → Option Nat) :
    Nat → List RawHostJSON → List ValidHostRow × List String
  | _, [] => ([], [])
  | i, r :: rest =>
    let tail := jsonHostsLoop fromiso (i + 1) rest
    match validateHostRowJSON fromiso (i + 1) r with
    | .ok v => (v :: tail.1, tail.2)
    | .error e => (tail.1, e :: tail.2)

/-- `JSONImporter.validate_hosts_data`: entry numbers are one-based
(`i + 1`). -/
def validate_hosts_data_json (fromiso : String → Option Nat)
    (data : List RawHostJSON) : List ValidHostRow × List String :=
  jsonHostsLoop fromiso 0 data

/-- Projection of the `ok` branch of a record validation. -/
def okOf (x : Except String ValidHostRow) : Option ValidHostRow :=
  match x with
  | .ok v => some v
  | .error _ => none

/-- Projection of the `error` branch of a record validation. -/
def errOf (x : Except String ValidHostRow) : Option String :=
  match x with
  | .ok _ => none
  | .error e => some e

/-- A network contains an address when its stored pair parses and the
address lies between its network and broadcast addresses. -/
def netContains (m : NetworkRec) (ip : Nat) : Prop :=
  ∃ b p, parseNetworkText m.network m.cidr = some (b, p) ∧ ipInNetwork b p ip = true

/-! ### Concrete fixtures used by witnesses and counterexamples.
Address values: 192.168.1.0 = 3232235776, 10.0.0.0 = 167772160. -/

/-- The network 192.168.1.0/24 (id 1). -/
def demoNet : NetworkRec := ⟨1, "192.168.1.0", 24, some 3232236031⟩

/-- A host at 192.168.1.1 assigned to network 1. -/
def demoHost1 : HostRec := ⟨1, "192.168.1.1", some 1, "active", some true⟩

/-- An active DHCP range 192.168.1.2 - 192.168.1.10 of network 1. -/
def demoRange2to10 : DhcpRangeRec := ⟨1, 1, 3232235778, 3232235786, true⟩

/-- Store for the next-available-address scenario. -/
def demoStoreNext : Store := ⟨[demoNet], [demoHost1], [demoRange2to10]⟩

/-- An inactive DHCP range 192.168.1.10 - 192.168.1.20 of network 1. -/
def inactiveRange10to20 : DhcpRangeRec := ⟨1, 1, 3232235786, 3232235796, false⟩

/-- Store whose only DHCP range is inactive. -/
def demoStoreInactive : Store := ⟨[demoNet], [], [inactiveRange10to20]⟩

/-- An active DHCP range 192.168.1.10 - 192.168.1.20 of network 1. -/
def activeRange10to20 : DhcpRangeRec := ⟨1, 1, 3232235786, 3232235796, true⟩

/-- An active DHCP range 192.168.1.10 - 192.168.1.19 of network 1. -/
def activeRange10to19 : DhcpRangeRec := ⟨1, 1, 3232235786, 3232235795, true⟩

/-- Store holding the range ending at .20. -/
def demoStore20 : Store := ⟨[demoNet], [], [activeRange10to20]⟩

/-- Store holding the range ending at .19. -/
def demoStore19 : Store := ⟨[demoNet], [], [activeRange10to19]⟩

/-- Store with network 1 and neither hosts nor ranges. -/
def demoStoreEmpty : Store := ⟨[demoNet], [], []⟩

/-- Store with network 1 and one assigned host. -/
def demoStoreHosted : Store := ⟨[demoNet], [demoHost1], []⟩

/-- Host creation payload: address 10.0.0.5 with the explicit
network_id 1 of 192.168.1.0/24, which does not contain it. -/
def hostInputExplicit : HostInput := ⟨"10.0.0.5", some 1, none, none⟩

/-- The network 10.0.0.0/24 (id 1). -/
def net10 : NetworkRec := ⟨1, "10.0.0.0", 24, some 167772415⟩

/-- Store holding only 10.0.0.0/24. -/
def demoStore10 : Store := ⟨[net10], [], []⟩

/-- A CSV host row that validates (status blank, normalized). -/
def csvRowGood : RawHostCSV := ⟨"192.168.1.10", "h1", "", "", "", "", "", ""⟩

/-- A CSV host row with the unrecognized boolean text "maybe". -/
def csvRowMaybe : RawHostCSV := ⟨"192.168.1.11", "h2", "", "active", "maybe", "", "", ""⟩

/-- A second CSV host row that validates. -/
def csvRowGood2 : RawHostCSV := ⟨"192.168.1.12", "h3", "", "reserved", "yes", "", "", ""⟩

/-- A batch mixing valid rows with a bad boolean. -/
def demoBatchCSV : List RawHostCSV := [csvRowGood, csvRowMaybe, csvRowGood2]

/-- An external timestamp parser that always fails (unused by the
fixtures, whose rows carry no timestamp). -/
def noIso : String → Option Nat := fun _ => none

/-- A JSON host entry with the unrecognized boolean text "maybe". -/
def jsonRowMaybe : RawHostJSON := ⟨"10.0.0.1", "", "", "active", .str "maybe", "", "", ""⟩

/-- A JSON batch holding one good entry and one bad boolean. -/
def demoBatchJSON : List RawHostJSON :=
  [⟨"10.0.0.2", "", "", "active", .bool true, "", "", ""⟩, jsonRowMaybe]

end Ipam

namespace Ipam

/-! ## Helper lemmas -/

/-- Length of the `hosts()` list by prefix class. -/
theorem pyHosts_length (b p : Nat) :
    (pyHosts b p).length =
      if p = 31 then 2 else if p = 32 then 1
      else broadcastAddress b p - networkAddress b p - 1 := by
  unfold pyHosts
  by_cases h31 : p = 31
  · simp [h31]
  · by_cases h32 : p = 32
    · simp [h31, h32]
    · simp [h31, h32, List.length_range']

/-- For prefixes up to 30 the block has at least four addresses. -/
theorem blockSize_ge_four {p : Nat} (hp : p ≤ 30) : 4 ≤ blockSize p := by
  unfold blockSize
  calc 4 = 2 ^ 2 := by norm_num
  _ ≤ 2 ^ (32 - p) := Nat.pow_le_pow_right (by norm_num) (by omega)

/-- The `hosts()` list is strictly ascending. -/
theorem pyHosts_pairwise (b p : Nat) : (pyHosts b p).Pairwise (· < ·) := by
  unfold pyHosts
  by_cases h31 : p = 31
  · subst h31
    have h2 : blockSize 31 = 2 := by decide
    have : networkAddress b 31 < broadcastAddress b 31 := by
      unfold broadcastAddress; omega
    simp [List.pairwise_cons, this]
  · by_cases h32 : p = 32
    · simp [h31, h32]
    · simp only [beq_iff_eq, h31, h32, if_false]
      exact List.pairwise_lt_range' _ _

/-- In a strictly ascending list, every element below the one `find?`
returns fails the scanned predicate. -/
theorem find?_first_of_sorted {p : Nat → Bool} :
    ∀ {l : List Nat}, l.Pairwise (· < ·) →
      ∀ {a : Nat}, l.find? p = some a → ∀ b ∈ l, b < a → p b = false := by
  intro l
  induction l with
  | nil => intro _ a h; simp at h
  | cons x xs ih =>
    intro hl a hfind b hb hba
    rcases List.pairwise_cons.mp hl with ⟨hx, hxs⟩
    rcases List.mem_cons.mp hb with rfl | hmem
    · cases hpx : p b with
      | true =>
        rw [List.find?_cons_of_pos _ hpx] at hfind
        cases hfind
        omega
      | false => rfl
    · cases hpx : p x with
      | true =>
        rw [List.find?_cons_of_pos _ hpx] at hfind
        cases hfind
        have := hx b hmem
        omega
      | false =>
        rw [List.find?_cons_of_neg _ (by simp [hpx])] at hfind
        exact ih hxs hfind b hmem hba

/-- Membership characterization of the `used_ips` conversion. -/
theorem usedIPs_mem :
    ∀ (hs : List HostRec) (l : List Nat), usedIPs hs = some l →
      ∀ a, a ∈ l ↔ ∃ h ∈ hs, parseIPv4 h.ip_address = some a := by
  intro hs
  induction hs with
  | nil =>
    intro l hl a
    simp only [usedIPs] at hl
    cases hl
    simp
  | cons h t ih =>
    intro l hl a
    simp only [usedIPs] at hl
    cases hp : parseIPv4 h.ip_address with
    | none => rw [hp] at hl; exact absurd hl (by simp)
    | some v =>
      rw [hp] at hl
      cases ht : usedIPs t with
      | none => rw [ht] at hl; exact absurd hl (by simp)
      | some vs =>
        rw [ht] at hl
        cases hl
        constructor
        · intro hmem
          rcases List.mem_cons.mp hmem with rfl | hmem
          · exact ⟨h, by simp, hp⟩
          · rcases (ih vs ht a).mp hmem with ⟨g, hg, hga⟩
            exact ⟨g, by simp [hg], hga⟩
        · rintro ⟨g, hg, hga⟩
          rcases List.mem_cons.mp hg with rfl | hg
          · rw [hp] at hga; cases hga; simp
          · exact List.mem_cons_of_mem _ ((ih vs ht a).mpr ⟨g, hg, hga⟩)

/-- The availability predicate scanned by `NextAvailableIP.get` holds
exactly on unoccupied addresses. -/
theorem availPred_iff (st : Store) (nid : Nat) (used : List Nat)
    (hused : usedIPs (hostsOfNetwork st nid) = some used) (a : Nat) :
    (!(used.contains a) && !(in_active_dhcp_range a (activeRangesOf st nid))) = true
      ↔ ¬ ipOccupied st nid a := by
  have hcontains : used.contains a = true ↔ a ∈ used := List.elem_iff
  rw [Bool.and_eq_true, Bool.not_eq_true', Bool.not_eq_true']
  unfold ipOccupied
  constructor
  · rintro ⟨hc, hr⟩ (⟨h, hh, hnid, hpa⟩ | hrange)
    · have hmem : a ∈ used := (usedIPs_mem _ _ hused a).mpr
        ⟨h, by simp [hostsOfNetwork, List.mem_filter, hh, hnid], hpa⟩
      have hct := hcontains.mpr hmem
      rw [hc] at hct
      exact Bool.noConfusion hct
    · simp [hr] at hrange
  · intro hno
    refine ⟨?_, ?_⟩
    · cases hc : used.contains a with
      | false => rfl
      | true =>
        rcases (usedIPs_mem _ _ hused a).mp (hcontains.mp hc) with ⟨h, hh, hpa⟩
        have hh2 : h ∈ st.hosts ∧ h.network_id = some nid := by
          simpa [hostsOfNetwork, List.mem_filter] using hh
        exact absurd (Or.inl ⟨h, hh2.1, hh2.2, hpa⟩) hno
    · cases hr : in_active_dhcp_range a (activeRangesOf st nid) with
      | false => rfl
      | true => exact absurd (Or.inr hr) hno

/-! ## Claims -/

/-- C1 counterexample: on the Python version the source requires
(3.8+, it uses walrus assignments), `IPv4Network.hosts()` yields the two
block addresses for /31 and the single address for /32, so
`total_hosts` is 2 and 1 there - not 0 as claimed. -/
theorem total_hosts_slash31_slash32_counterexample :
    total_hosts ⟨1, "10.0.0.0", 31, none⟩ = some 2 ∧
      total_hosts ⟨2, "10.0.0.0", 32, none⟩ = some 1 ∧
      ¬ (total_hosts ⟨1, "10.0.0.0", 31, none⟩ = some 0 ∧
          total_hosts ⟨2, "10.0.0.0", 32, none⟩ = some 0) := by
  refine ⟨by rfl, by rfl, ?_⟩
  rintro ⟨h, -⟩
  rw [show total_hosts ⟨1, "10.0.0.0", 31, none⟩ = some 2 from rfl] at h
  cases h

/-- C1 (amended): for every Network whose stored (network, cidr) parses
as a valid IPv4 network, `total_hosts` equals `2^(32-prefix) - 2` for a
prefix up to 30, `2` for prefix 31 and `1` for prefix 32. -/
theorem total_hosts_eval (n : NetworkRec) (b : Nat)
    (hb : parseIPv4 n.network = some b) (hp : n.cidr ≤ 32) :
    total_hosts n =
      some (if n.cidr ≤ 30 then 2 ^ (32 - n.cidr) - 2
            else if n.cidr = 31 then 2 else 1) := by
  unfold total_hosts parseNetworkText
  rw [hb]
  simp only [hp, if_true, Option.map_some']
  rw [pyHosts_length]
  by_cases h31 : n.cidr = 31
  · simp [h31]
  · by_cases h32 : n.cidr = 32
    · simp [h31, h32]
    · have h30 : n.cidr ≤ 30 := by omega
      have hbs := blockSize_ge_four h30
      simp only [h31, h32, if_false, h30, if_true, Option.some.injEq]
      unfold broadcastAddress
      generalize networkAddress b n.cidr = m
      unfold blockSize at hbs ⊢
      omega

/-- C1 witness: 192.168.1.0/24 has 254 usable hosts. -/
theorem total_hosts_eval_witness :
    total_hosts ⟨1, "192.168.1.0", 24, some 3232236031⟩ = some 254 := by
  have h := total_hosts_eval ⟨1, "192.168.1.0", 24, some 3232236031⟩
    3232235776 (by decide) (by decide)
  simpa using h

/-- C2: NextAvailableIP.get scans the usable host addresses in ascending
numeric order and returns the first one that is neither stored by a host
of the network nor inside an active DHCP range of the network; it never
returns an occupied address, and it aborts with NoAvailableAddress
exactly when every usable address is occupied. -/
theorem nextAvailableIP_correct (st : Store) (n : NetworkRec) (b p : Nat)
    (hparse : parseNetworkText n.network n.cidr = some (b, p))
    (used : List Nat) (hused : usedIPs (hostsOfNetwork st n.id) = some used) :
    ∃ r, nextAvailableIP st n = some r ∧
      (r = none ↔ ∀ a ∈ pyHosts b p, ipOccupied st n.id a) ∧
      ∀ a, r = some a →
        a ∈ pyHosts b p ∧ ¬ ipOccupied st n.id a ∧
          ∀ c ∈ pyHosts b p, c < a → ipOccupied st n.id c := by
  unfold nextAvailableIP
  rw [hparse, hused]
  refine ⟨_, rfl, ?_, ?_⟩
  · constructor
    · intro hnone a ha
      have hfa := List.find?_eq_none.mp hnone a ha
      by_contra hocc
      exact hfa ((availPred_iff st n.id used hused a).mpr hocc)
    · intro hall
      apply List.find?_eq_none.mpr
      intro x hx hpx
      exact ((availPred_iff st n.id used hused x).mp hpx) (hall x hx)
  · intro a ha
    have hmem := List.mem_of_find?_eq_some ha
    have hpa := List.find?_some ha
    refine ⟨hmem, (availPred_iff st n.id used hused a).mp hpa, ?_⟩
    intro c hc hca
    have hfalse := find?_first_of_sorted (pyHosts_pairwise b p) ha c hc hca
    by_contra hnocc
    have hc2 := (availPred_iff st n.id used hused c).mpr hnocc
    rw [hfalse] at hc2
    exact Bool.noConfusion hc2

/-- C2 witness: in the scenario store (network 192.168.1.0/24, host at
.1, active DHCP range .2-.10) the conclusions hold; in particular the
scan is characterized at the concrete state. -/
theorem nextAvailableIP_correct_witness :
    ∃ r, nextAvailableIP demoStoreNext demoNet = some r ∧
      (r = none ↔ ∀ a ∈ pyHosts 3232235776 24, ipOccupied demoStoreNext demoNet.id a) ∧
      ∀ a, r = some a →
        a ∈ pyHosts 3232235776 24 ∧ ¬ ipOccupied demoStoreNext demoNet.id a ∧
          ∀ c ∈ pyHosts 3232235776 24, c < a → ipOccupied demoStoreNext demoNet.id c :=
  nextAvailableIP_correct demoStoreNext demoNet 3232235776 24 (by decide)
    [3232235777] (by decide)

/-- Sibling membership characterization for the DHCP range validator:
the scanned ranges are exactly the other rows of the same network, the
`is_active` column taking no part. -/
theorem siblingRanges_mem (st : Store) (nid : Nat) (excl : Option Nat)
    (r : DhcpRangeRec) :
    r ∈ siblingRanges st nid excl ↔
      r ∈ st.dhcpRanges ∧ r.network_id = nid ∧
        (∀ x, excl = some x → x ≠ 0 → r.id ≠ x) := by
  unfold siblingRanges
  cases excl with
  | none => simp [List.mem_filter]
  | some x =>
    by_cases hx : x = 0
    · subst hx
      simp [List.mem_filter]
    · simp only [hx, if_true, ne_eq, ite_not]
      simp [List.mem_filter, hx, and_assoc]
      intro _
      tauto

/-- C3 counterexample: the only sibling range overlapping the candidate
192.168.1.15 - 192.168.1.25 is inactive, yet `_validate_range` rejects
the candidate with the overlap error (the sibling query does not filter
on `is_active`). -/
theorem validate_range_inactive_overlap_counterexample :
    inactiveRange10to20.is_active = false ∧
      validate_range demoStoreInactive demoNet 3232235791 3232235801 none ≠
        some none ∧
      validate_range demoStoreInactive demoNet 3232235791 3232235801 none =
        some (some ("DHCP range overlaps an existing range: "
          ++ ipToString 3232235786 ++ "-" ++ ipToString 3232235796)) := by
  refine ⟨rfl, ?_, by decide⟩
  intro h
  have h2 : validate_range demoStoreInactive demoNet 3232235791 3232235801 none =
      some (some ("DHCP range overlaps an existing range: "
        ++ ipToString 3232235786 ++ "-" ++ ipToString 3232235796)) := by decide
  rw [h2] at h
  simp at h

/-- C3 (amended): the overlap check runs against every other DhcpRange
row of the same network - active or inactive alike - excluding the
`exclude_range_id` row when that id is truthy: for an in-bounds ordered
candidate, acceptance is equivalent to overlapping none of those rows. -/
theorem validate_range_overlap_all_siblings (st : Store) (n : NetworkRec)
    (s e : Nat) (excl : Option Nat) (b p : Nat)
    (hparse : parseNetworkText n.network n.cidr = some (b, p))
    (hs : ipInNetwork b p s = true) (he : ipInNetwork b p e = true)
    (hle : s ≤ e) :
    validate_range st n s e excl = some none ↔
      ∀ r ∈ st.dhcpRanges, r.network_id = n.id →
        (∀ x, excl = some x → x ≠ 0 → r.id ≠ x) →
        overlapsTest s e r.start_ip r.end_ip = false := by
  unfold validate_range
  rw [hparse]
  dsimp only
  rw [hs, he]
  simp only [Bool.not_true, Bool.or_self, Bool.false_eq_true, if_false]
  rw [if_neg (by omega)]
  cases hfind : (siblingRanges st n.id excl).find?
      (fun r => overlapsTest s e r.start_ip r.end_ip) with
  | some r =>
    have hover := List.find?_some hfind
    have hmem := List.mem_of_find?_eq_some hfind
    rcases (siblingRanges_mem st n.id excl r).mp hmem with ⟨hr, hnid, hexcl⟩
    constructor
    · intro hcontra
      simp at hcontra
    · intro hall
      have := hall r hr hnid hexcl
      rw [this] at hover
      exact Bool.noConfusion hover
  | none =>
    constructor
    · intro _ r hr hnid hexcl
      have := List.find?_eq_none.mp hfind r
        ((siblingRanges_mem st n.id excl r).mpr ⟨hr, hnid, hexcl⟩)
      simpa using this
    · intro _
      rfl

/-- C3 witness: a candidate overlapping no sibling of an empty store is
accepted, via the amended equivalence. -/
theorem validate_range_overlap_all_siblings_witness :
    validate_range demoStoreEmpty demoNet 3232235791 3232235801 none = some none :=
  (validate_range_overlap_all_siblings demoStoreEmpty demoNet
      3232235791 3232235801 none 3232235776 24
      (by decide) (by decide) (by decide) (by decide)).mpr
    (by intro r hr; simp [demoStoreEmpty] at hr)

/-- C4 counterexample: a candidate range consisting of the network
address 192.168.1.0 itself - outside the usable host range - is
accepted by `_validate_range`, which only tests membership in the full
network. -/
theorem validate_range_network_address_accepted_counterexample :
    validate_range demoStoreEmpty demoNet 3232235776 3232235776 none = some none ∧
      ¬ 3232235776 ∈ pyHosts 3232235776 24 := by
  constructor
  · decide
  · intro h
    rw [show pyHosts 3232235776 24 = List.range' 3232235777 254 from rfl] at h
    have := (List.mem_range'_1.mp h).1
    omega

/-- C4 (amended): the boundary check of `_validate_range` is containment
in the full network range - network and broadcast addresses included,
not the usable host range: an endpoint outside the network yields the
OutOfBounds error, and any accepted range lies between the network and
broadcast addresses inclusively. -/
theorem validate_range_bounds (st : Store) (n : NetworkRec) (s e : Nat)
    (excl : Option Nat) (b p : Nat)
    (hparse : parseNetworkText n.network n.cidr = some (b, p)) :
    (¬ (ipInNetwork b p s = true ∧ ipInNetwork b p e = true) →
        validate_range st n s e excl =
          some (some "DHCP range must be within the selected network")) ∧
    (validate_range st n s e excl = some none →
        networkAddress b p ≤ s ∧ s ≤ broadcastAddress b p ∧
          networkAddress b p ≤ e ∧ e ≤ broadcastAddress b p) := by
  constructor
  · intro hout
    unfold validate_range
    rw [hparse]
    dsimp only
    have hcond : (!(ipInNetwork b p s) || !(ipInNetwork b p e)) = true := by
      cases hbs : ipInNetwork b p s <;> cases hbe : ipInNetwork b p e <;>
        simp_all
    rw [hcond]
    simp
  · intro hacc
    by_cases hbs : ipInNetwork b p s = true
    · by_cases hbe : ipInNetwork b p e = true
      · have h1 := hbs; have h2 := hbe
        unfold ipInNetwork at h1 h2
        rw [Bool.and_eq_true] at h1 h2
        refine ⟨by simpa using h1.1, by simpa using h1.2,
          by simpa using h2.1, by simpa using h2.2⟩
      · exfalso
        unfold validate_range at hacc
        rw [hparse] at hacc
        dsimp only at hacc
        have hcond : (!(ipInNetwork b p s) || !(ipInNetwork b p e)) = true := by
          cases hbe2 : ipInNetwork b p e <;> simp_all
        rw [hcond] at hacc
        simp at hacc
    · exfalso
      unfold validate_range at hacc
      rw [hparse] at hacc
      dsimp only at hacc
      have hcond : (!(ipInNetwork b p s) || !(ipInNetwork b p e)) = true := by
        cases hbs2 : ipInNetwork b p s <;> simp_all
      rw [hcond] at hacc
      simp at hacc

/-- C4 witness: a range strictly inside the usable hosts of the empty
store's network is not hit by the OutOfBounds error, and an accepted
call is bounded; instantiated with out-of-network endpoint 10.0.0.5. -/
theorem validate_range_bounds_witness :
    validate_range demoStoreEmpty demoNet 167772165 167772165 none =
      some (some "DHCP range must be within the selected network") :=
  (validate_range_bounds demoStoreEmpty demoNet 167772165 167772165 none
      3232235776 24 (by decide)).1
    (by rw [show ipInNetwork 3232235776 24 167772165 = false from by decide]
        simp)

/-- C6: the overlap predicate is boundary-inclusive -
`not (A.end < B.start or A.start > B.end)`, equivalently intersection of
the closed intervals; concretely, a candidate .20-.30 is rejected
against an existing .10-.20 and accepted against an existing .10-.19. -/
theorem overlapsTest_boundary_inclusive :
    (∀ aStart aEnd bStart bEnd : Nat,
        overlapsTest aStart aEnd bStart bEnd = true ↔
          bStart ≤ aEnd ∧ aStart ≤ bEnd) ∧
      validate_range demoStore20 demoNet 3232235796 3232235806 none =
        some (some ("DHCP range overlaps an existing range: "
          ++ ipToString 3232235786 ++ "-" ++ ipToString 3232235796)) ∧
      validate_range demoStore19 demoNet 3232235796 3232235806 none =
        some none := by
  refine ⟨?_, by decide, by decide⟩
  intro aStart aEnd bStart bEnd
  unfold overlapsTest
  simp only [Bool.not_eq_true', Bool.or_eq_false_iff, decide_eq_false_iff_not]
  omega

/-- The auto-detection scan returns the first listed network containing
the address, and `none` exactly when no listed network contains it. -/
theorem detectNetwork_spec :
    ∀ (nets : List NetworkRec) (ip : Nat) (res : Option Nat),
      detectNetwork nets ip = some res →
      (res = none → ∀ m ∈ nets, ¬ netContains m ip) ∧
      ∀ nid, res = some nid →
        ∃ pre m post, nets = pre ++ m :: post ∧ m.id = nid ∧ netContains m ip ∧
          ∀ m2 ∈ pre, ¬ netContains m2 ip := by
  intro nets
  induction nets with
  | nil =>
    intro ip res h
    unfold detectNetwork at h
    injection h with h
    subst h
    exact ⟨fun _ m hm => absurd hm (List.not_mem_nil m),
      fun nid hnid => Option.noConfusion hnid⟩
  | cons n rest ih =>
    intro ip res h
    unfold detectNetwork at h
    cases hp : parseNetworkText n.network n.cidr with
    | none =>
      rw [hp] at h
      exact Option.noConfusion h
    | some bp =>
      rw [hp] at h
      dsimp only at h
      by_cases hin : ipInNetwork bp.1 bp.2 ip = true
      · rw [if_pos hin] at h
        injection h with h
        subst h
        refine ⟨fun hcon => Option.noConfusion hcon, ?_⟩
        intro nid hnid
        injection hnid with h2
        exact ⟨[], n, rest, rfl, h2, ⟨bp.1, bp.2, by rw [hp], hin⟩,
          fun m2 hm2 => absurd hm2 (List.not_mem_nil m2)⟩
      · rw [if_neg hin] at h
        have hrest := ih ip res h
        refine ⟨?_, ?_⟩
        · intro hres m hm
          rcases List.mem_cons.mp hm with rfl | hm
          · rintro ⟨b2, p2, hp2, hin2⟩
            rw [hp] at hp2
            injection hp2 with e
            exact hin (by rw [e]; exact hin2)
          · exact hrest.1 hres m hm
        · intro nid hnid
          rcases hrest.2 nid hnid with ⟨pre, m, post, heq, hid, hcont, hpre⟩
          refine ⟨n :: pre, m, post, by rw [heq]; rfl, hid, hcont, ?_⟩
          intro m2 hm2
          rcases List.mem_cons.mp hm2 with rfl | hm2
          · rintro ⟨b2, p2, hp2, hin2⟩
            rw [hp] at hp2
            injection hp2 with e
            exact hin (by rw [e]; exact hin2)
          · exact hpre m2 hm2

/-- C5 counterexample: creating a host at 10.0.0.5 with the explicit
network_id 1 of 192.168.1.0/24 succeeds and stores the reference even
though that network does not contain the address - no containment check
runs on an explicit network_id. -/
theorem createHost_explicit_no_containment_counterexample :
    createHost demoStoreEmpty hostInputExplicit true 1 =
      some (.ok ⟨1, "10.0.0.5", some 1, "active", some true⟩,
        ⟨[demoNet], [⟨1, "10.0.0.5", some 1, "active", some true⟩], []⟩) ∧
      ¬ netContains demoNet 167772165 := by
  refine ⟨by decide, ?_⟩
  rintro ⟨b, p, hp, hin⟩
  rw [show parseNetworkText demoNet.network demoNet.cidr =
    some (3232235776, 24) from by decide] at hp
  injection hp with e
  injection e with e1 e2
  rw [← e1, ← e2] at hin
  exact absurd hin (by decide)

/-- C5 (amended): host writes perform no containment validation on an
explicitly supplied truthy network_id - the value is stored verbatim,
on create and equally on an update that changes the address;
containment-based auto-detection runs only when no truthy network_id is
supplied (on create, and on update only when the address changed),
assigning the first listed network that contains the address, or null
when no listed network contains it. -/
theorem hostWrites_network_assignment
    (st : Store) (inp : HostInput) (cfg : Bool) (fid : Nat) (ipVal : Nat)
    (hip : parseIPv4 inp.ip_address = some ipVal)
    (hdup : st.hosts.any (fun h => h.ip_address == inp.ip_address) = false) :
    (∀ x, inp.network_id = some x → x ≠ 0 →
      ∃ h st2, createHost st inp cfg fid = some (.ok h, st2) ∧
        h.network_id = some x ∧ st2.hosts = st.hosts ++ [h]) ∧
    ((inp.network_id = none ∨ inp.network_id = some 0) →
      ∀ d, detectNetwork st.networks ipVal = some d →
        ∃ h st2, createHost st inp cfg fid = some (.ok h, st2) ∧
          h.network_id = d ∧ st2.hosts = st.hosts ++ [h]) ∧
    (∀ d, detectNetwork st.networks ipVal = some (some d) →
      ∃ pre m post, st.networks = pre ++ m :: post ∧ m.id = d ∧
        netContains m ipVal ∧ ∀ m2 ∈ pre, ¬ netContains m2 ipVal) ∧
    (detectNetwork st.networks ipVal = some none →
      ∀ m ∈ st.networks, ¬ netContains m ipVal) ∧
    (∀ hid old upd, st.hosts.find? (fun h => h.id == hid) = some old →
      upd.ip_address = old.ip_address → ∀ v, upd.network_id = some v →
        ∃ h st2, updateHost st hid upd = some (.ok h, st2) ∧
          h.network_id = v) ∧
    (∀ hid old upd ipU x, st.hosts.find? (fun h => h.id == hid) = some old →
      upd.ip_address ≠ old.ip_address →
      parseIPv4 upd.ip_address = some ipU →
      st.hosts.any
        (fun h => h.ip_address == upd.ip_address && !(h.id == hid)) = false →
      upd.network_id = some (some x) → x ≠ 0 →
        ∃ h st2, updateHost st hid upd = some (.ok h, st2) ∧
          h.network_id = some x) ∧
    (∀ hid old upd ipU d, st.hosts.find? (fun h => h.id == hid) = some old →
      upd.ip_address ≠ old.ip_address →
      parseIPv4 upd.ip_address = some ipU →
      st.hosts.any
        (fun h => h.ip_address == upd.ip_address && !(h.id == hid)) = false →
      networkIdTruthy upd.network_id = false →
      detectNetwork st.networks ipU = some d →
        ∃ h st2, updateHost st hid upd = some (.ok h, st2) ∧
          h.network_id = d) := by
  refine ⟨?_, ?_, ?_, ?_, ?_, ?_, ?_⟩
  · intro x hx hx0
    unfold createHost
    rw [hip]
    dsimp only
    rw [hdup]
    simp only [Bool.false_eq_true, if_false]
    rw [hx]
    dsimp only
    rw [if_pos hx0]
    exact ⟨_, _, rfl, rfl, rfl⟩
  · intro hfalsy d hdet
    unfold createHost
    rw [hip]
    dsimp only
    rw [hdup]
    simp only [Bool.false_eq_true, if_false]
    rcases hfalsy with hnone | hzero
    · rw [hnone]
      dsimp only
      rw [hdet]
      exact ⟨_, _, rfl, rfl, rfl⟩
    · rw [hzero]
      dsimp only
      rw [if_neg (by omega)]
      rw [hdet]
      exact ⟨_, _, rfl, rfl, rfl⟩
  · intro d hdet
    exact ((detectNetwork_spec st.networks ipVal (some d) hdet).2) d rfl
  · intro hdet
    exact (detectNetwork_spec st.networks ipVal none hdet).1 rfl
  · intro hid old upd hfind hsame v hv
    unfold updateHost
    rw [hfind]
    dsimp only
    rw [if_neg (by simp [hsame])]
    rw [if_neg (by simp [hsame])]
    rw [hv]
    dsimp only
    rw [if_neg (by simp [hsame])]
    exact ⟨_, _, rfl, rfl⟩
  · intro hid old upd ipU x hfind hch hparse hdup2 hx hx0
    unfold updateHost
    rw [hfind]
    dsimp only
    rw [if_neg (by simp [hparse])]
    rw [if_neg (by simp [hdup2])]
    rw [hx]
    dsimp only
    rw [if_neg (by simp [networkIdTruthy, hx, hx0])]
    exact ⟨_, _, rfl, rfl⟩
  · intro hid old upd ipU d hfind hch hparse hdup2 htr hdet
    unfold updateHost
    rw [hfind]
    dsimp only
    rw [if_neg (by simp [hparse])]
    rw [if_neg (by simp [hdup2])]
    rw [if_pos ⟨hch, htr⟩]
    rw [hparse]
    dsimp only
    rw [hdet]
    exact ⟨_, _, rfl, rfl⟩

/-- C5 witness: auto-detection on the 10.0.0.0/24 store assigns network
1 to a created host at 10.0.0.5; and an update that changes a host of
192.168.1.0/24 to 10.0.0.5 with no supplied network_id re-runs
detection and stores null, since no listed network contains the new
address. -/
theorem hostWrites_network_assignment_witness :
    (∃ h st2, createHost demoStore10 ⟨"10.0.0.5", none, none, none⟩ true 1 =
      some (.ok h, st2) ∧ h.network_id = some 1 ∧
        st2.hosts = demoStore10.hosts ++ [h]) ∧
    ∃ h st2, updateHost demoStoreHosted 1 ⟨"10.0.0.5", none, none, none⟩ =
      some (.ok h, st2) ∧ h.network_id = none :=
  ⟨(hostWrites_network_assignment demoStore10 ⟨"10.0.0.5", none, none, none⟩
      true 1 167772165 (by decide) (by decide)).2.1
    (Or.inl rfl) (some 1) (by decide),
   (hostWrites_network_assignment demoStoreHosted
      ⟨"10.0.0.5", none, none, none⟩ true 2 167772165 (by decide)
      (by decide)).2.2.2.2.2.2
    1 demoHost1 ⟨"10.0.0.5", none, none, none⟩ 167772165 none
    (by decide) (by decide) (by decide) (by decide) (by rfl) (by decide)⟩

/-- C7 counterexample: with 10.0.0.0/24 stored, creating 10.0.0.0/16 is
rejected as a duplicate although no stored network has that
(network_base, prefix) pair - the duplicate check compares the network
text alone. -/
theorem createNetwork_prefix_ignored_counterexample :
    createNetwork demoStore10 "10.0.0.0" 16 2 =
      (.error "Network already exists", demoStore10) ∧
      ¬ ∃ m ∈ demoStore10.networks, m.network = "10.0.0.0" ∧ m.cidr = 16 := by
  refine ⟨by decide, ?_⟩
  rintro ⟨m, hm, hnet, hcidr⟩
  have hm2 : m = net10 := by
    simpa [demoStore10] using hm
  rw [hm2] at hcidr
  exact absurd hcidr (by decide)

/-- C7 (amended): the duplicate check of network writes compares the
stored `network` text alone: a parseable create fails with
DuplicateNetwork exactly when some existing row has the same text
(whatever its prefix), and a changed update exactly when some other row
has the same text. -/
theorem network_duplicate_by_text_only (st : Store) (txt : String)
    (cidr fid nid : Nat) (b p : Nat)
    (hparse : parseNetworkText txt cidr = some (b, p)) :
    ((createNetwork st txt cidr fid).1 = .error "Network already exists" ↔
      ∃ m ∈ st.networks, m.network = txt) ∧
    (∀ old, st.networks.find? (fun m => m.id == nid) = some old →
      (txt ≠ old.network ∨ cidr ≠ old.cidr) →
      ((updateNetwork st nid txt cidr).1 = .error "Network already exists" ↔
        ∃ m ∈ st.networks, m.network = txt ∧ m.id ≠ nid)) := by
  constructor
  · unfold createNetwork
    rw [hparse]
    dsimp only
    cases hany : st.networks.any (fun m => m.network == txt) with
    | true =>
      rcases List.any_eq_true.mp hany with ⟨m, hm, hbeq⟩
      constructor
      · intro _
        exact ⟨m, hm, by simpa using hbeq⟩
      · intro _
        rfl
    | false =>
      simp only [Bool.false_eq_true, if_false]
      constructor
      · intro hcon
        exact NetWriteResult.noConfusion hcon
      · rintro ⟨m, hm, hnet⟩
        have : st.networks.any (fun m => m.network == txt) = true :=
          List.any_eq_true.mpr ⟨m, hm, by simpa using hnet⟩
        rw [hany] at this
        exact Bool.noConfusion this
  · intro old hfind hch
    unfold updateNetwork
    rw [hfind]
    dsimp only
    rw [if_pos hch, hparse]
    dsimp only
    cases hany : st.networks.any (fun m => m.network == txt && !(m.id == nid)) with
    | true =>
      rcases List.any_eq_true.mp hany with ⟨m, hm, hbeq⟩
      rw [Bool.and_eq_true] at hbeq
      constructor
      · intro _
        exact ⟨m, hm, by simpa using hbeq.1, by simpa using hbeq.2⟩
      · intro _
        rfl
    | false =>
      simp only [Bool.false_eq_true, if_false]
      constructor
      · intro hcon
        exact NetWriteResult.noConfusion hcon
      · rintro ⟨m, hm, hnet, hid⟩
        have : st.networks.any (fun m => m.network == txt && !(m.id == nid)) = true :=
          List.any_eq_true.mpr ⟨m, hm, by simp [hnet, hid]⟩
        rw [hany] at this
        exact Bool.noConfusion this

/-- C7 witness: with an empty network list the create of 10.0.0.0/24 is
not a duplicate. -/
theorem network_duplicate_by_text_only_witness :
    ¬ (createNetwork ⟨[], [], []⟩ "10.0.0.0" 24 1).1 =
      .error "Network already exists" := by
  have h := (network_duplicate_by_text_only ⟨[], [], []⟩ "10.0.0.0" 24 1 0
    167772160 24 (by decide)).1
  intro hcon
  rcases h.mp hcon with ⟨m, hm, -⟩
  simp at hm

/-- C8: deleting a fetched network fails with HasAssignedHosts exactly
when hosts reference it, leaving the store unchanged; with zero
referencing hosts it removes the network row and touches neither hosts
nor DHCP ranges. -/
theorem deleteNetwork_guard (st : Store) (nid : Nat) (n : NetworkRec)
    (hfind : st.networks.find? (fun m => m.id == nid) = some n) :
    (0 < (st.hosts.filter (fun h => h.network_id == some n.id)).length →
      deleteNetwork st nid =
        (.hasAssignedHosts
          (st.hosts.filter (fun h => h.network_id == some n.id)).length, st)) ∧
    ((st.hosts.filter (fun h => h.network_id == some n.id)).length = 0 →
      deleteNetwork st nid =
        (.deleted,
          ⟨st.networks.filter (fun m => !(m.id == n.id)), st.hosts, st.dhcpRanges⟩)) := by
  unfold deleteNetwork
  rw [hfind]
  dsimp only
  constructor
  · intro hpos
    rw [if_neg]
    intro hemp
    rw [List.isEmpty_iff] at hemp
    rw [hemp] at hpos
    simp at hpos
  · intro hzero
    rw [if_pos]
    rw [List.isEmpty_iff]
    exact List.length_eq_zero.mp hzero

/-- C8 witness: deletion succeeds on the empty store and fails on the
store with one assigned host. -/
theorem deleteNetwork_guard_witness :
    deleteNetwork demoStoreEmpty 1 = (.deleted, ⟨[], [], []⟩) ∧
      deleteNetwork demoStoreHosted 1 = (.hasAssignedHosts 1, demoStoreHosted) := by
  constructor
  · have h := (deleteNetwork_guard demoStoreEmpty 1 demoNet (by decide)).2 (by decide)
    rw [h]
    decide
  · have h := (deleteNetwork_guard demoStoreHosted 1 demoNet (by decide)).1 (by decide)
    rw [h]
    decide

/-- C10: the delete endpoint's first statement evaluates the unbound
name `get_models`, so every call terminates with a NameError and the
store - in particular its host table - is unchanged. -/
theorem hostResourceDelete_always_nameError (st : Store) (hid : Nat) :
    hostResourceDelete st hid = (.nameError, st) ∧
      (hostResourceDelete st hid).2.hosts = st.hosts := by
  have h : hostsNameDefined "get_models" = false := by decide
  unfold hostResourceDelete
  rw [h]
  exact ⟨by simp, by simp⟩

/-- Indexed membership in `enumFrom` from an indexed lookup. -/
theorem enumFrom_mem_of_lookup {α : Type} :
    ∀ (l : List α) (i j : Nat) (r : α), l[j]? = some r →
      (i + j, r) ∈ l.enumFrom i := by
  intro l
  induction l with
  | nil =>
    intro i j r h
    simp at h
  | cons x xs ih =>
    intro i j r h
    cases j with
    | zero =>
      simp at h
      subst h
      simp [List.enumFrom]
    | succ k =>
      simp at h
      have hmem := ih (i + 1) k r h
      have heq : i + (k + 1) = (i + 1) + k := by omega
      rw [List.enumFrom, heq]
      exact List.mem_cons_of_mem _ hmem

/-- The CSV validation loop partitions exactly by the per-record
validation at offset row numbers. -/
theorem csvHostsLoop_eq (f : String → Option Nat) :
    ∀ (data : List RawHostCSV) (i : Nat),
      csvHostsLoop f i data =
        ((data.enumFrom i).filterMap
          (fun q => okOf (validateHostRowCSV f (q.1 + 2) q.2)),
         (data.enumFrom i).filterMap
          (fun q => errOf (validateHostRowCSV f (q.1 + 2) q.2))) := by
  intro data
  induction data with
  | nil => intro i; simp [csvHostsLoop, List.enumFrom]
  | cons r rest ih =>
    intro i
    cases hv : validateHostRowCSV f (i + 2) r with
    | ok v => simp [csvHostsLoop, hv, ih, List.enumFrom, okOf, errOf]
    | error e => simp [csvHostsLoop, hv, ih, List.enumFrom, okOf, errOf]

/-- The JSON validation loop partitions exactly by the per-record
validation at one-based entry numbers. -/
theorem jsonHostsLoop_eq (f : String → Option Nat) :
    ∀ (data : List RawHostJSON) (i : Nat),
      jsonHostsLoop f i data =
        ((data.enumFrom i).filterMap
          (fun q => okOf (validateHostRowJSON f (q.1 + 1) q.2)),
         (data.enumFrom i).filterMap
          (fun q => errOf (validateHostRowJSON f (q.1 + 1) q.2))) := by
  intro data
  induction data with
  | nil => intro i; simp [jsonHostsLoop, List.enumFrom]
  | cons r rest ih =>
    intro i
    cases hv : validateHostRowJSON f (i + 1) r with
    | ok v => simp [jsonHostsLoop, hv, ih, List.enumFrom, okOf, errOf]
    | error e => simp [jsonHostsLoop, hv, ih, List.enumFrom, okOf, errOf]

/-- C9: both import pipelines process the batch per record and never
abort: the result is exactly the partition of the per-record outcomes
into the validated subset and the error list; a record whose
is_assigned value is unrecognized (such as "maybe") yields the
InvalidBoolean-style error tagged with its row/entry number and no
validated record, while every record that validates on its own still
appears in the valid list. -/
theorem validate_hosts_data_batch (f : String → Option Nat) :
    (∀ data : List RawHostCSV,
      validate_hosts_data_csv f data =
        (data.enum.filterMap (fun q => okOf (validateHostRowCSV f (q.1 + 2) q.2)),
         data.enum.filterMap (fun q => errOf (validateHostRowCSV f (q.1 + 2) q.2)))) ∧
    (∀ (data : List RawHostCSV) (i : Nat) (r : RawHostCSV),
      data[i]? = some r → (r.ip_address == "") = false →
      (parseIPv4 r.ip_address).isSome = true →
      (r.is_assigned == "") = false →
      trueWords.contains (pyLower (pyStrip r.is_assigned)) = false →
      falseWords.contains (pyLower (pyStrip r.is_assigned)) = false →
      validateHostRowCSV f (i + 2) r =
        .error ("Row " ++ toString (i + 2) ++ ": Invalid Is Assigned value") ∧
      ("Row " ++ toString (i + 2) ++ ": Invalid Is Assigned value") ∈
        (validate_hosts_data_csv f data).2) ∧
    (∀ (data : List RawHostCSV) (j : Nat) (r : RawHostCSV) (v : ValidHostRow),
      data[j]? = some r → validateHostRowCSV f (j + 2) r = .ok v →
      v ∈ (validate_hosts_data_csv f data).1) ∧
    (∀ data : List RawHostJSON,
      validate_hosts_data_json f data =
        (data.enum.filterMap (fun q => okOf (validateHostRowJSON f (q.1 + 1) q.2)),
         data.enum.filterMap (fun q => errOf (validateHostRowJSON f (q.1 + 1) q.2)))) ∧
    (∀ (data : List RawHostJSON) (i : Nat) (r : RawHostJSON) (s : String),
      data[i]? = some r → (r.ip_address == "") = false →
      (parseIPv4 r.ip_address).isSome = true →
      r.is_assigned = .str s →
      trueWords.contains (pyLower (pyStrip s)) = false →
      falseWords.contains (pyLower (pyStrip s)) = false →
      validateHostRowJSON f (i + 1) r =
        .error ("Entry " ++ toString (i + 1) ++ ": Invalid is_assigned value") ∧
      ("Entry " ++ toString (i + 1) ++ ": Invalid is_assigned value") ∈
        (validate_hosts_data_json f data).2) ∧
    (∀ (data : List RawHostJSON) (j : Nat) (r : RawHostJSON) (v : ValidHostRow),
      data[j]? = some r → validateHostRowJSON f (j + 1) r = .ok v →
      v ∈ (validate_hosts_data_json f data).1) := by
  have hcsv : ∀ data : List RawHostCSV,
      validate_hosts_data_csv f data =
        (data.enum.filterMap (fun q => okOf (validateHostRowCSV f (q.1 + 2) q.2)),
         data.enum.filterMap (fun q => errOf (validateHostRowCSV f (q.1 + 2) q.2))) := by
    intro data
    unfold validate_hosts_data_csv
    rw [csvHostsLoop_eq f data 0]
    rfl
  have hjson : ∀ data : List RawHostJSON,
      validate_hosts_data_json f data =
        (data.enum.filterMap (fun q => okOf (validateHostRowJSON f (q.1 + 1) q.2)),
         data.enum.filterMap (fun q => errOf (validateHostRowJSON f (q.1 + 1) q.2))) := by
    intro data
    unfold validate_hosts_data_json
    rw [jsonHostsLoop_eq f data 0]
    rfl
  refine ⟨hcsv, ?_, ?_, hjson, ?_, ?_⟩
  · intro data i r hget hip hipsome hassign htrue hfalse
    have hrow : validateHostRowCSV f (i + 2) r =
        .error ("Row " ++ toString (i + 2) ++ ": Invalid Is Assigned value") := by
      unfold validateHostRowCSV
      rw [hip]
      simp only [Bool.false_eq_true, if_false]
      cases hp : parseIPv4 r.ip_address with
      | none => rw [hp] at hipsome; simp at hipsome
      | some w =>
        dsimp only
        rw [hassign]
        simp only [Bool.false_eq_true, if_false]
        rw [htrue]
        simp only [Bool.false_eq_true, if_false]
        rw [hfalse]
        simp only [Bool.false_eq_true, if_false]
    refine ⟨hrow, ?_⟩
    rw [hcsv data]
    have hmem := enumFrom_mem_of_lookup data 0 i r hget
    rw [Nat.zero_add] at hmem
    exact List.mem_filterMap.mpr ⟨(i, r), hmem, by simp [errOf, hrow]⟩
  · intro data j r v hget hok
    rw [hcsv data]
    have hmem := enumFrom_mem_of_lookup data 0 j r hget
    rw [Nat.zero_add] at hmem
    exact List.mem_filterMap.mpr ⟨(j, r), hmem, by simp [okOf, hok]⟩
  · intro data i r s hget hip hipsome hassign htrue hfalse
    have hrow : validateHostRowJSON f (i + 1) r =
        .error ("Entry " ++ toString (i + 1) ++ ": Invalid is_assigned value") := by
      unfold validateHostRowJSON
      rw [hip]
      simp only [Bool.false_eq_true, if_false]
      cases hp : parseIPv4 r.ip_address with
      | none => rw [hp] at hipsome; simp at hipsome
      | some w =>
        dsimp only
        rw [hassign]
        dsimp only
        rw [htrue]
        simp only [Bool.false_eq_true, if_false]
        rw [hfalse]
        simp only [Bool.false_eq_true, if_false]
    refine ⟨hrow, ?_⟩
    rw [hjson data]
    have hmem := enumFrom_mem_of_lookup data 0 i r hget
    rw [Nat.zero_add] at hmem
    exact List.mem_filterMap.mpr ⟨(i, r), hmem, by simp [errOf, hrow]⟩
  · intro data j r v hget hok
    rw [hjson data]
    have hmem := enumFrom_mem_of_lookup data 0 j r hget
    rw [Nat.zero_add] at hmem
    exact List.mem_filterMap.mpr ⟨(j, r), hmem, by simp [okOf, hok]⟩

/-- C9 witness: in the mixed CSV batch the "maybe" row is rejected with
the row-3 error while the surrounding valid rows are still imported,
and in the JSON batch the "maybe" entry gets the entry-2 error. -/
theorem validate_hosts_data_batch_witness :
    (validateHostRowCSV noIso (1 + 2) csvRowMaybe =
        .error ("Row " ++ toString (1 + 2) ++ ": Invalid Is Assigned value") ∧
      ("Row " ++ toString (1 + 2) ++ ": Invalid Is Assigned value") ∈
        (validate_hosts_data_csv noIso demoBatchCSV).2) ∧
    ⟨"192.168.1.10", "h1", "", "active", none, none, none, ""⟩ ∈
      (validate_hosts_data_csv noIso demoBatchCSV).1 ∧
    ⟨"192.168.1.12", "h3", "", "reserved", some true, none, none, ""⟩ ∈
      (validate_hosts_data_csv noIso demoBatchCSV).1 ∧
    (validateHostRowJSON noIso (1 + 1) jsonRowMaybe =
        .error ("Entry " ++ toString (1 + 1) ++ ": Invalid is_assigned value") ∧
      ("Entry " ++ toString (1 + 1) ++ ": Invalid is_assigned value") ∈
        (validate_hosts_data_json noIso demoBatchJSON).2) := by
  have h := validate_hosts_data_batch noIso
  refine ⟨?_, ?_, ?_, ?_⟩
  · exact h.2.1 demoBatchCSV 1 csvRowMaybe (by decide) (by decide) (by decide)
      (by decide) (by decide) (by decide)
  · exact h.2.2.1 demoBatchCSV 0 csvRowGood
      ⟨"192.168.1.10", "h1", "", "active", none, none, none, ""⟩
      (by decide) (by rfl)
  · exact h.2.2.1 demoBatchCSV 2 csvRowGood2
      ⟨"192.168.1.12", "h3", "", "reserved", some true, none, none, ""⟩
      (by decide) (by rfl)
  · exact h.2.2.2.2.1 demoBatchJSON 1 jsonRowMaybe "maybe" (by decide) (by decide)
      (by decide) (by decide) (by decide) (by decide)

end Ipam
